import Mathlib

/-!
Shallow embedding of the qthread cooperative user-level threading library
(src/src/qthread.c together with the public header qthread.h).

Modelling conventions:
* A thread record (C `thread_t`) is identified by its address; addresses are
  modelled as natural numbers (`Tid`).  The heap of records is a total
  function `Tid → thread_t`.
* The circular singly-linked registry (`thread_list`, the `next` fields) is
  represented by the list of record ids in traversal order starting at the
  head; circularity means the successor of the last element is the head.
* The saved machine context (`ucontext_t`) is opaque: transferring control is
  modelled by the `current` pointer (control always sits in the record
  `current` points to once the scheduler has dispatched).  `setcontext` /
  `swapcontext` therefore appear only as updates of `current`.
* `malloc`/`free` are modelled by a counter `allocs` of live heap blocks plus
  success/failure flags passed to `qthread_create`; a fresh address for a
  successful `malloc` of a record is supplied as a parameter.
* `void *` result values (`retval`) are word-sized; they are modelled as `Int`.
-/

/-- Abstract address of a `thread_t` record. -/
abbrev Tid := Nat

/-- C enum `thread_state` from qthread.h: `typedef enum { READY, RUNNING, FINISHED }`. -/
inductive thread_state
  | READY
  | RUNNING
  | FINISHED
  deriving DecidableEq

open thread_state

/-- C struct `thread` from qthread.h.  The `context` field is opaque and
carries no information the claims depend on, so it is omitted; the `next`
field is represented by the position of the record id in `Sys.thread_list`;
`stack` is modelled by the size of the owned buffer (`none` = `NULL`). -/
structure thread_t where
  stack : Option Nat
  state : thread_state
  retval : Int
  deriving DecidableEq

/-- Process-wide state of the library: the globals of qthread.c
(`thread_list`, `current`, `stack_size`) plus the record heap and a counter
of live malloc blocks. -/
structure Sys where
  thread_list : List Tid
  recs : Tid → thread_t
  current : Option Tid
  stack_size : Nat
  allocs : Nat

/-- `#define DEFAULT_STACK_SIZE (64 * 1024)` from qthread.h. -/
def DEFAULT_STACK_SIZE : Nat := 64 * 1024

/-- Pointwise update of the record heap (a store through a `thread_t *`). -/
def updateFn (f : Tid → thread_t) (k : Tid) (v : thread_t) : Tid → thread_t :=
  fun x => if x = k then v else f x

/-- The loop test `t->state == READY` of `qscheduler`. -/
def isReady (recs : Tid → thread_t) (t : Tid) : Bool :=
  decide ((recs t).state = READY)

/-- Helper for `rotAfter`: walks the registry list keeping the already
visited elements (in reverse) in `acc`; on reaching `c` it returns the
remaining elements followed by the visited ones, which is exactly the order
in which the circular traversal `t = c->next; ...; t = t->next` visits the
registry before coming back to `c`. -/
def rotAfterAux : List Tid → Tid → List Tid → List Tid
  | [], _, acc => acc.reverse
  | x :: xs, c, acc => if x = c then xs ++ acc.reverse else rotAfterAux xs c (x :: acc)

/-- The scan order of the normal case of `qscheduler` (qthread.c lines
58-66): the records strictly after `c` in circular registry order, i.e. the
part of the list after the (first occurrence of) `c` followed by the part
before it. -/
def rotAfter (l : List Tid) (c : Tid) : List Tid :=
  rotAfterAux l c []

/-- Normal-case selection of `qscheduler` (qthread.c lines 58-77): scan from
`current->next`, wrapping, for the first READY record distinct from
`current`; if none is found and `current` itself is still READY keep
`current`; otherwise select nothing (the function returns). -/
def selectNext (recs : Tid → thread_t) (l : List Tid) (c : Tid) : Option Tid :=
  match (rotAfter l c).find? (isReady recs) with
  | some t => some t
  | none => if (recs c).state = READY then some c else none

/-- The selection performed by `qscheduler` (qthread.c lines 44-81):
`none` when the function returns without transferring control, `some t`
when it dispatches `t`.  The bootstrap case (`current == NULL`, lines
49-57) scans the whole registry from the head with a do/while loop, which
visits the list in order starting at the head; the final guard
`if (t->state != READY) return` (line 81) corresponds to `find?` returning
`none`. -/
def schedSelect (s : Sys) : Option Tid :=
  if s.thread_list = [] then none
  else
    match s.current with
    | none => s.thread_list.find? (isReady s.recs)
    | some c => selectNext s.recs s.thread_list c

/-- `qscheduler` (qthread.c lines 44-93).  The dispatch part (lines 83-92)
sets `current` to the selected record and transfers control to it
(`setcontext` in the bootstrap case, `swapcontext` otherwise); when the
selected record is `current` itself, or nothing is selected, the state is
untouched. -/
def qscheduler (s : Sys) : Sys :=
  match schedSelect s with
  | some t => { s with current := some t }
  | none => s

/-- Whether an invocation of `qscheduler` executes `setcontext` or
`swapcontext` (qthread.c lines 84-92): true in the bootstrap dispatch and
when the selected record differs from `current`; false when nothing is
selected or the selected record is `current` itself. -/
def contextTransfer (s : Sys) : Bool :=
  match s.current, schedSelect s with
  | none, some _ => true
  | some c, some t => t != c
  | _, none => false

/-- `qthread_set_stacksize` (qthread.c lines 28-30): `stack_size = size;`. -/
def qthread_set_stacksize (s : Sys) (size : Nat) : Sys :=
  { s with stack_size := size }

/-- `qthread_self` (qthread.c lines 37-39): `return current;`. -/
def qthread_self (s : Sys) : Option Tid :=
  s.current

/-- The first two statements of `qthread_exit` (qthread.c lines 103-104):
`current->retval = value; current->state = FINISHED;` for an established
current record `c`. -/
def exitMark (s : Sys) (c : Tid) (value : Int) : Sys :=
  { s with recs := updateFn s.recs c { s.recs c with retval := value, state := FINISHED } }

/-- `qthread_exit` (qthread.c lines 102-106): store the return value, mark
the current record FINISHED, then invoke the scheduler.  When `current` is
`NULL` the C code dereferences a null pointer (undefined behaviour); the
model leaves the state unchanged, and all theorems about `qthread_exit`
assume an established current record. -/
def qthread_exit (s : Sys) (value : Int) : Sys :=
  match s.current with
  | none => s
  | some c => qscheduler (exitMark s c value)

/-- Whether a call `qthread_exit value` returns control to its caller: the
call returns exactly when the `qscheduler()` invocation at line 105 selects
no record and falls through.  (When a record `t ≠ current` is selected,
`swapcontext` switches away and, the current record being FINISHED and
FINISHED records never being selected, control never comes back to this
frame; the scheduler cannot select `current` itself there since `current`
was just marked FINISHED.) -/
def exitReturnsToCaller (s : Sys) (value : Int) : Bool :=
  match s.current with
  | none => true
  | some c => (schedSelect (exitMark s c value)).isNone

/-- Insertion into the circular registry, from `qthread_create` (qthread.c
lines 153-164): an empty registry becomes the single self-linked record;
otherwise walk to the tail (`temp->next != thread_list`) and link the new
record between the tail and the head. -/
def register (l : List Tid) (t : Tid) : List Tid :=
  match l with
  | [] => [t]
  | h :: rest => h :: (rest ++ [t])

/-- `qthread_create` (qthread.c lines 131-170).  `fresh` is the address
`malloc` would return for the record; `recOk`, `stackOk`, `ctxOk` are the
success of `malloc(sizeof(thread_t))`, `malloc(stack_size)` and
`getcontext` respectively.  Returns the C result (0 or -1) and the new
state; on success the out-parameter `*new_thread` is `fresh`.
The C code sets `t->state = READY` before `getcontext` (line 141), but on
the failure path the record is freed, so this write is unobservable and the
model materialises the record only on success. -/
def qthread_create (s : Sys) (fresh : Tid) (recOk stackOk ctxOk : Bool) : Int × Sys :=
  if recOk = false then
    (-1, s)
  else
    let s1 := { s with allocs := s.allocs + 1 }
    if stackOk = false then
      (-1, { s1 with allocs := s1.allocs - 1 })
    else
      let s2 := { s1 with allocs := s1.allocs + 1 }
      if ctxOk = false then
        (-1, { s2 with allocs := s2.allocs - 2 })
      else
        (0, { s2 with
                recs := updateFn s2.recs fresh
                  { stack := some s.stack_size, state := READY, retval := 0 },
                thread_list := register s2.thread_list fresh })

/-- Removal from the circular registry, from `qthread_join` (qthread.c
lines 188-207): with `prev = thread_list` and `curr = thread_list->next`,
the single self-linked head equal to the target empties the registry;
otherwise the loop scans `curr` through the successors of the head
(`rest`, then wrapping to the head itself) for the target, unlinks it
(`prev->next = curr->next`) and, if the target was the head, moves the head
to its successor.  `List.erase` removes exactly the first occurrence found
by that scan. -/
def unregister (l : List Tid) (th : Tid) : List Tid :=
  match l with
  | [] => []
  | h :: rest =>
    if rest = [] then
      if h = th then [] else [h]
    else if th ∈ rest then
      h :: rest.erase th
    else if h = th then
      rest
    else
      h :: rest

/-- The busy-wait loop of `qthread_join` (qthread.c lines 182-184):
`while (thread->state != FINISHED) qscheduler();`.  `fuel` bounds the number
of iterations; `none` means the loop was still spinning when the fuel ran
out. -/
def joinWait : Nat → Sys → Tid → Option Sys
  | 0, s, t => if (s.recs t).state = FINISHED then some s else none
  | fuel + 1, s, t =>
    if (s.recs t).state = FINISHED then some s else joinWait fuel (qscheduler s) t

/-- Number of `free` calls that release memory when `qthread_join` reclaims
a record (qthread.c lines 209-210): `free(thread->stack)` releases a block
only when the stack is not `NULL`, `free(thread)` always does. -/
def free_count (r : thread_t) : Nat :=
  match r.stack with
  | none => 1
  | some _ => 2

/-- The part of `qthread_join` after the busy-wait loop (qthread.c lines
186-212): capture the return value, unlink the target from the registry,
release its stack and record. -/
def joinFinished (s : Sys) (t : Tid) : Sys × Int :=
  ({ s with
      thread_list := unregister s.thread_list t,
      allocs := s.allocs - free_count (s.recs t) },
   (s.recs t).retval)

/-- `qthread_join` (qthread.c lines 181-213): busy-wait until the target is
FINISHED, then read its return value and reclaim it.  Returns `none` if the
fuel bound is exhausted before the target finishes. -/
def qthread_join (fuel : Nat) (s : Sys) (t : Tid) : Option (Sys × Int) :=
  match joinWait fuel s t with
  | none => none
  | some s1 => some (joinFinished s1 t)

/-- Modelled from the spec: `qthread_init` is declared in qthread.h (the
header requires it to run once, before any `create`, from the host thread)
but its definition is not among the provided sources; `main` in qthread.c
lines 264-274 performs the same steps inline.  Per the spec it wraps the
host's ambient execution context as a Thread Record with `stack = null` and
state READY and inserts it into the registry.  `host` is the address of the
host's record. -/
def qthread_init (s : Sys) (host : Tid) : Sys :=
  { s with
      recs := updateFn s.recs host { stack := none, state := READY, retval := 0 },
      thread_list := register s.thread_list host }

/-- No record anywhere in the heap is in the RUNNING state. -/
def noRunning (s : Sys) : Prop :=
  ∀ t : Tid, (s.recs t).state ≠ RUNNING

/-- The state before any library call: the globals of qthread.c at load
time (`thread_list = NULL`, `current = NULL`,
`stack_size = DEFAULT_STACK_SIZE`), an arbitrary record heap and no live
allocations. -/
def initial_state : Sys :=
  { thread_list := []
  , recs := fun _ => { stack := none, state := READY, retval := 0 }
  , current := none
  , stack_size := DEFAULT_STACK_SIZE
  , allocs := 0 }

/-! ### Concrete states used by witnesses and counterexamples -/

/-- A worker record owning a default-sized stack buffer, READY. -/
def recReady : thread_t := { stack := some DEFAULT_STACK_SIZE, state := READY, retval := 0 }

/-- A worker record that has finished with result 5. -/
def recFin : thread_t := { stack := some DEFAULT_STACK_SIZE, state := FINISHED, retval := 5 }

/-- Registry 0,1,2 with current 1; records 0 and 1 READY, record 2 FINISHED. -/
def sysA : Sys :=
  { thread_list := [0, 1, 2]
  , recs := fun t => if t = 0 then recReady else if t = 1 then recReady else recFin
  , current := some 1
  , stack_size := DEFAULT_STACK_SIZE
  , allocs := 6 }

/-- Registry 0,1,2 with current 1; only record 1 is READY. -/
def sysB : Sys :=
  { thread_list := [0, 1, 2]
  , recs := fun t => if t = 1 then recReady else recFin
  , current := some 1
  , stack_size := DEFAULT_STACK_SIZE
  , allocs := 6 }

/-- A single self-linked READY record 0 which is current: the state in
which a lone registered thread is about to call `qthread_exit` with no
other record that could be switched to. -/
def sysLone : Sys :=
  { thread_list := [0]
  , recs := fun _ => recReady
  , current := some 0
  , stack_size := DEFAULT_STACK_SIZE
  , allocs := 2 }

/-- Two READY records, nothing ever dispatched (the bootstrap state). -/
def sysBoot : Sys :=
  { thread_list := [0, 1]
  , recs := fun _ => recReady
  , current := none
  , stack_size := DEFAULT_STACK_SIZE
  , allocs := 4 }

/-! ### Helper lemmas about the registry operations -/

theorem register_eq_append (l : List Tid) (t : Tid) : register l t = l ++ [t] := by
  cases l <;> rfl

theorem register_nodup (l : List Tid) (t : Tid) (h : l.Nodup) (ht : t ∉ l) :
    (register l t).Nodup := by
  rw [register_eq_append]
  simp [List.nodup_append, h, ht]

theorem unregister_eq_erase (l : List Tid) (th : Tid) (hnd : l.Nodup) :
    unregister l th = l.erase th := by
  match l with
  | [] => rfl
  | x :: xs =>
    by_cases hxs : xs = []
    · subst hxs
      by_cases hx : x = th <;> simp [unregister, List.erase_cons, hx]
    · by_cases hmem : th ∈ xs
      · have hx : x ≠ th := by
          rintro rfl
          exact (List.nodup_cons.mp hnd).1 hmem
        simp [unregister, hxs, hmem, List.erase_cons, hx]
      · by_cases hx : x = th
        · subst hx
          simp [unregister, hxs, hmem, List.erase_cons]
        · simp [unregister, hxs, hmem, List.erase_cons, hx, List.erase_of_not_mem hmem]

theorem unregister_head_self (a : Tid) (rest : List Tid) (ha : a ∉ rest) :
    unregister (a :: rest) a = rest := by
  by_cases hr : rest = []
  · subst hr; simp [unregister]
  · simp [unregister, hr, ha]

theorem foldl_register_eq (acc ids : List Tid) :
    List.foldl register acc ids = acc ++ ids := by
  induction ids generalizing acc with
  | nil => simp
  | cons x xs ih => simp [List.foldl_cons, register_eq_append, ih]

theorem foldl_unregister_self (ids : List Tid) (h : ids.Nodup) :
    List.foldl unregister ids ids = [] := by
  induction ids with
  | nil => rfl
  | cons a rest ih =>
    have ha : a ∉ rest := (List.nodup_cons.mp h).1
    have h2 : rest.Nodup := (List.nodup_cons.mp h).2
    simp [List.foldl_cons, unregister_head_self a rest ha, ih h2]

/-! ### Helper lemmas about the scan order -/

theorem rotAfterAux_split (c : Tid) :
    ∀ (l acc : List Tid), c ∈ l →
      ∃ pre post, l = pre ++ c :: post ∧ c ∉ pre ∧
        rotAfterAux l c acc = post ++ acc.reverse ++ pre := by
  intro l
  induction l with
  | nil => intro acc h; cases h
  | cons x xs ih =>
    intro acc h
    by_cases hx : x = c
    · subst hx
      exact ⟨[], xs, rfl, by simp, by simp [rotAfterAux]⟩
    · have hxs : c ∈ xs := by
        rcases List.mem_cons.mp h with h1 | h1
        · exact absurd h1.symm hx
        · exact h1
      obtain ⟨pre, post, e, hcp, hrot⟩ := ih (x :: acc) hxs
      refine ⟨x :: pre, post, by simp [e], ?_, ?_⟩
      · intro hmem
        rcases List.mem_cons.mp hmem with h1 | h1
        · exact hx h1.symm
        · exact hcp h1
      · rw [show rotAfterAux (x :: xs) c acc = rotAfterAux xs c (x :: acc) from by
          simp [rotAfterAux, hx]]
        rw [hrot]
        simp [List.append_assoc]

theorem rotAfter_split (l : List Tid) (c : Tid) (h : c ∈ l) :
    ∃ pre post, l = pre ++ c :: post ∧ c ∉ pre ∧ rotAfter l c = post ++ pre := by
  obtain ⟨pre, post, e, hcp, hrot⟩ := rotAfterAux_split c l [] h
  exact ⟨pre, post, e, hcp, by simpa using hrot⟩

theorem mem_rotAfter (l : List Tid) (c u : Tid) (hc : c ∈ l) (hu : u ∈ l) (hne : u ≠ c) :
    u ∈ rotAfter l c := by
  obtain ⟨pre, post, e, _, hrot⟩ := rotAfter_split l c hc
  subst e
  rw [hrot]
  simp only [List.mem_append, List.mem_cons] at hu ⊢
  rcases hu with h1 | h1 | h1
  · exact Or.inr h1
  · exact absurd h1 hne
  · exact Or.inl h1

theorem rotAfter_subset (l : List Tid) (c u : Tid) (hc : c ∈ l) (hu : u ∈ rotAfter l c) :
    u ∈ l := by
  obtain ⟨pre, post, e, _, hrot⟩ := rotAfter_split l c hc
  subst e
  rw [hrot] at hu
  simp only [List.mem_append, List.mem_cons] at hu ⊢
  tauto

/-! ### Helper lemmas about searching -/

theorem find?_decomp {α : Type} (p : α → Bool) :
    ∀ (l : List α) (t : α), l.find? p = some t →
      ∃ pre post, l = pre ++ t :: post ∧ (∀ w ∈ pre, p w = false) ∧ p t = true := by
  intro l
  induction l with
  | nil => intro t h; simp [List.find?] at h
  | cons x xs ih =>
    intro t h
    by_cases hx : p x = true
    · rw [List.find?_cons_of_pos _ hx] at h
      cases h
      exact ⟨[], xs, rfl, by simp, hx⟩
    · rw [List.find?_cons_of_neg _ hx] at h
      obtain ⟨pre, post, e, hpre, hpt⟩ := ih t h
      refine ⟨x :: pre, post, by simp [e], ?_, hpt⟩
      intro w hw
      rcases List.mem_cons.mp hw with h1 | h1
      · subst h1; simpa using hx
      · exact hpre w h1

theorem isReady_false_iff (recs : Tid → thread_t) (t : Tid) :
    isReady recs t = false ↔ (recs t).state ≠ READY := by
  simp [isReady]

/-! ### Helper lemmas about the scheduler -/

theorem selectNext_ready (recs : Tid → thread_t) (l : List Tid) (c t : Tid)
    (h : selectNext recs l c = some t) : (recs t).state = READY := by
  unfold selectNext at h
  cases hf : (rotAfter l c).find? (isReady recs) with
  | some t' =>
    rw [hf] at h
    cases h
    have := List.find?_some hf
    simpa [isReady] using this
  | none =>
    rw [hf] at h
    by_cases hc : (recs c).state = READY
    · rw [if_pos hc] at h
      cases h
      exact hc
    · rw [if_neg hc] at h
      cases h

theorem schedSelect_ready (s : Sys) (t : Tid) (h : schedSelect s = some t) :
    (s.recs t).state = READY := by
  unfold schedSelect at h
  by_cases hl : s.thread_list = []
  · rw [if_pos hl] at h; cases h
  · rw [if_neg hl] at h
    cases hc : s.current with
    | none =>
      rw [hc] at h
      have := List.find?_some h
      simpa [isReady] using this
    | some c =>
      rw [hc] at h
      exact selectNext_ready s.recs s.thread_list c t h

theorem qscheduler_recs (s : Sys) : (qscheduler s).recs = s.recs := by
  unfold qscheduler
  cases schedSelect s <;> rfl

theorem qscheduler_thread_list (s : Sys) : (qscheduler s).thread_list = s.thread_list := by
  unfold qscheduler
  cases schedSelect s <;> rfl

theorem qscheduler_dispatch (s : Sys) (t : Tid) (h : schedSelect s = some t) :
    qscheduler s = { s with current := some t } := by
  unfold qscheduler
  rw [h]

theorem sys_set_current_self (s : Sys) (c : Tid) (h : s.current = some c) :
    { s with current := some c } = s := by
  cases s with
  | mk tl rc cur ss al =>
    dsimp at h
    subst h
    rfl

theorem exitMark_recs_self (s : Sys) (c : Tid) (v : Int) :
    ((exitMark s c v).recs c).retval = v ∧ ((exitMark s c v).recs c).state = FINISHED := by
  simp [exitMark, updateFn]

theorem joinWait_finished (fuel : Nat) (s : Sys) (t : Tid)
    (h : (s.recs t).state = FINISHED) : joinWait fuel s t = some s := by
  cases fuel <;> simp [joinWait, h]

/-! ### Claim theorems -/

/-- Claim C1: for a non-empty registry with an established current thread,
the scheduler selects precisely the first READY record in circular registry
order strictly after the current one (wrapping around): every record the
scan passes over before the selected one is not READY, and a record in a
state other than READY is never selected; selection depends only on list
order after current (there is no creation-time or priority input). -/
theorem C1_round_robin_first_ready (s : Sys) (c u : Tid)
    (hc : s.current = some c)
    (hu : u ∈ rotAfter s.thread_list c)
    (hru : (s.recs u).state = READY) :
    (∃ t pre post,
        schedSelect s = some t ∧
        (s.recs t).state = READY ∧
        rotAfter s.thread_list c = pre ++ t :: post ∧
        (∀ w ∈ pre, (s.recs w).state ≠ READY)) ∧
    (∀ t : Tid, schedSelect s = some t → (s.recs t).state = READY) := by
  constructor
  · have hl : s.thread_list ≠ [] := by
      intro h0
      rw [h0] at hu
      simp [rotAfter, rotAfterAux] at hu
    have hfind : (rotAfter s.thread_list c).find? (isReady s.recs) ≠ none := by
      intro hnone
      have := List.find?_eq_none.mp hnone u hu
      simp [isReady, hru] at this
    cases hf : (rotAfter s.thread_list c).find? (isReady s.recs) with
    | none => exact absurd hf hfind
    | some t =>
      obtain ⟨pre, post, e, hpre, hpt⟩ := find?_decomp _ _ _ hf
      refine ⟨t, pre, post, ?_, ?_, e, ?_⟩
      · simp [schedSelect, hl, hc, selectNext, hf]
      · simpa [isReady] using hpt
      · intro w hw
        have := hpre w hw
        rwa [isReady_false_iff] at this
  · intro t ht
    exact schedSelect_ready s t ht

/-- Witness for C1 at `sysA`: current is 1, the scan order after 1 is
`[2, 0]`, record 2 is FINISHED and record 0 READY, so 0 is selected. -/
theorem C1_witness :
    ∃ t pre post,
      schedSelect sysA = some t ∧
      (sysA.recs t).state = READY ∧
      rotAfter sysA.thread_list 1 = pre ++ t :: post ∧
      (∀ w ∈ pre, (sysA.recs w).state ≠ READY) :=
  (C1_round_robin_first_ready sysA 1 0 (by decide) (by decide) (by decide)).1

/-- Claim C2: the registry operations preserve the single-circular-chain
invariant: `register` appends at the tail and keeps every live thread
present exactly once, `unregister` removes the target re-linking its
neighbours (every survivor stays registered, the target is gone,
distinctness is preserved), `qthread_create` and `qthread_join` act on the
registry through exactly these operations, and after creating K threads
and joining all K the registry is empty. -/
theorem C2_registry_invariant (l : List Tid) (t th : Tid) (hnd : l.Nodup) (ht : t ∉ l)
    (ids : List Tid) (hids : ids.Nodup) (s : Sys) :
    register l t = l ++ [t] ∧
    (register l t).Nodup ∧
    (unregister l th).Nodup ∧
    th ∉ unregister l th ∧
    (∀ u, u ∈ l → u ≠ th → u ∈ unregister l th) ∧
    (qthread_create s t true true true).2.thread_list = register s.thread_list t ∧
    (joinFinished s th).1.thread_list = unregister s.thread_list th ∧
    List.foldl unregister (List.foldl register [] ids) ids = [] := by
  refine ⟨register_eq_append l t, register_nodup l t hnd ht, ?_, ?_, ?_, ?_, rfl, ?_⟩
  · rw [unregister_eq_erase l th hnd]
    exact hnd.erase th
  · rw [unregister_eq_erase l th hnd]
    exact hnd.not_mem_erase
  · intro u hu hne
    rw [unregister_eq_erase l th hnd]
    exact (List.mem_erase_of_ne hne).mpr hu
  · simp [qthread_create]
  · rw [foldl_register_eq]
    simpa using foldl_unregister_self ids hids

/-- Witness for C2 at concrete lists and the state `sysA`. -/
theorem C2_witness :
    register [0, 1, 2] 3 = [0, 1, 2, 3] ∧
    (unregister [0, 1, 2] 1).Nodup ∧
    1 ∉ unregister [0, 1, 2] 1 ∧
    List.foldl unregister (List.foldl register [] [4, 5]) [4, 5] = [] := by
  have h := C2_registry_invariant [0, 1, 2] 3 1 (by decide) (by decide) [4, 5] (by decide) sysA
  exact ⟨h.1, h.2.2.1, h.2.2.2.1, h.2.2.2.2.2.2.2⟩

/-- Claim C5: if allocation of the thread record, allocation of the stack
buffer, or initialization of the execution context fails, `qthread_create`
returns -1 and the resulting state is exactly the state before the call —
in particular every buffer allocated during that call has been released
(the live-allocation count is restored), nothing is registered, and no
caller-visible state changes; on success it returns 0 and the new record is
READY, owns a buffer of the current default stack size, sits at the tail of
the registry, and exactly two blocks (record and stack) were allocated. -/
theorem C5_create_failure_clean (s : Sys) (fresh : Tid) (b2 b3 : Bool) :
    qthread_create s fresh false b2 b3 = (-1, s) ∧
    qthread_create s fresh true false b3 = (-1, s) ∧
    qthread_create s fresh true true false = (-1, s) ∧
    (qthread_create s fresh true true true).1 = 0 ∧
    (qthread_create s fresh true true true).2.thread_list = s.thread_list ++ [fresh] ∧
    ((qthread_create s fresh true true true).2.recs fresh).state = READY ∧
    ((qthread_create s fresh true true true).2.recs fresh).stack = some s.stack_size ∧
    (qthread_create s fresh true true true).2.current = s.current ∧
    (qthread_create s fresh true true true).2.stack_size = s.stack_size ∧
    (qthread_create s fresh true true true).2.allocs = s.allocs + 2 := by
  refine ⟨rfl, ?_, ?_, rfl, ?_, ?_, ?_, rfl, rfl, rfl⟩
  · simp [qthread_create]
  · simp [qthread_create]
  · simp [qthread_create, register_eq_append]
  · simp [qthread_create, updateFn]
  · simp [qthread_create, updateFn]

/-- Claim C10: before the scheduler has ever dispatched a thread,
`qthread_self` returns the null handle: `current` is NULL in the initial
state, `qthread_self` merely reads it, and no operation other than the
scheduler itself ever modifies `current`. -/
theorem C10_self_null_before_dispatch :
    qthread_self initial_state = none ∧
    initial_state.current = none ∧
    (∀ s : Sys, qthread_self s = s.current) ∧
    (∀ (s : Sys) (n : Nat), (qthread_set_stacksize s n).current = s.current) ∧
    (∀ (s : Sys) (f : Tid) (b1 b2 b3 : Bool),
        (qthread_create s f b1 b2 b3).2.current = s.current) ∧
    (∀ (s : Sys) (host : Tid), (qthread_init s host).current = s.current) ∧
    (∀ (s : Sys) (u : Tid), (joinFinished s u).1.current = s.current) := by
  refine ⟨rfl, rfl, fun s => rfl, fun s n => rfl, ?_, fun s host => rfl, fun s u => rfl⟩
  intro s f b1 b2 b3
  cases b1 <;> cases b2 <;> cases b3 <;> simp [qthread_create]

/-- Counterexample for C3 as stated: in the state `sysLone` — a single
registered thread, READY and current — that thread's call of
`qthread_exit 7` marks it FINISHED, the scheduler invoked by the exit call
then finds no READY record and returns without switching, so the exit call
returns control to its caller, contradicting the claim that `exit` never
returns control to its caller. -/
theorem C3_counterexample :
    sysLone.current = some 0 ∧ sysLone.thread_list = [0] ∧
    exitReturnsToCaller sysLone 7 = true := by
  refine ⟨rfl, rfl, ?_⟩
  decide

/-- Claim C3 (amended): a call of `qthread_exit value` by the current
thread sets that thread's result slot to `value` and its state to FINISHED
and then invokes the scheduler; a record whose state is FINISHED is never
selected by the scheduler again, so whenever the scheduler finds another
READY record to switch to, the exiting thread is never resumed and the call
never returns; the call returns control to its caller exactly when the
scheduler invoked by it selects no record (no READY thread remained). -/
theorem C3_exit_behaviour (s : Sys) (c : Tid) (v : Int) (hc : s.current = some c) :
    qthread_exit s v = qscheduler (exitMark s c v) ∧
    ((exitMark s c v).recs c).retval = v ∧
    ((exitMark s c v).recs c).state = FINISHED ∧
    (∀ (s2 : Sys) (t : Tid), (s2.recs t).state = FINISHED → schedSelect s2 ≠ some t) ∧
    (exitReturnsToCaller s v = false ↔ (schedSelect (exitMark s c v)).isSome) := by
  refine ⟨?_, (exitMark_recs_self s c v).1, (exitMark_recs_self s c v).2, ?_, ?_⟩
  · simp [qthread_exit, hc]
  · intro s2 t hfin hsel
    have hr := schedSelect_ready s2 t hsel
    cases hr.symm.trans hfin
  · cases h2 : schedSelect (exitMark s c v) <;>
      simp [exitReturnsToCaller, hc, h2]

/-- Witness for C3 at `sysA` (current thread 1 exiting with value 42). -/
theorem C3_witness :
    qthread_exit sysA 42 = qscheduler (exitMark sysA 1 42) ∧
    ((exitMark sysA 1 42).recs 1).retval = 42 ∧
    ((exitMark sysA 1 42).recs 1).state = FINISHED := by
  have h := C3_exit_behaviour sysA 1 42 (by decide)
  exact ⟨h.1, h.2.1, h.2.2.1⟩

/-- Counterexample for C4 as stated: in the bootstrap state `sysBoot` the
scheduler dispatches record 0 — it becomes current and control is
transferred to it — yet the dispatched record's state is still READY, not
RUNNING: the code never assigns the RUNNING state to any record. -/
theorem C4_counterexample :
    schedSelect sysBoot = some 0 ∧
    (qscheduler sysBoot).current = some 0 ∧
    contextTransfer sysBoot = true ∧
    ((qscheduler sysBoot).recs 0).state = READY ∧
    READY ≠ RUNNING := by
  decide

/-- Claim C4 (amended): whenever the scheduler dispatches a record —
bootstrap case or normal case — it marks the selected record as current
before transferring control to it, but it does not change any record's
state field: the dispatched record keeps the READY state and no operation
of the library ever assigns RUNNING.  Consequently every state whose
records avoid RUNNING keeps avoiding it under all operations — in
particular at most one record is RUNNING at any instant and none before
the scheduler's first invocation, both vacuously. -/
theorem C4_dispatch_marks_current_not_running (s : Sys) (t : Tid)
    (h : schedSelect s = some t) :
    (qscheduler s).current = some t ∧
    (qscheduler s).recs = s.recs ∧
    (s.recs t).state = READY ∧
    noRunning initial_state ∧
    (∀ s2 : Sys, noRunning s2 → noRunning (qscheduler s2)) ∧
    (∀ (s2 : Sys) (v : Int), noRunning s2 → noRunning (qthread_exit s2 v)) ∧
    (∀ (s2 : Sys) (f : Tid) (b1 b2 b3 : Bool), noRunning s2 →
        noRunning (qthread_create s2 f b1 b2 b3).2) ∧
    (∀ (s2 : Sys) (n : Nat), noRunning s2 → noRunning (qthread_set_stacksize s2 n)) ∧
    (∀ (s2 : Sys) (host : Tid), noRunning s2 → noRunning (qthread_init s2 host)) ∧
    (∀ (s2 : Sys) (u : Tid), noRunning s2 → noRunning (joinFinished s2 u).1) := by
  refine ⟨?_, qscheduler_recs s, schedSelect_ready s t h, ?_, ?_, ?_, ?_, ?_, ?_, ?_⟩
  · rw [qscheduler_dispatch s t h]
  · intro u hx
    simp [initial_state] at hx
  · intro s2 h2 u
    rw [qscheduler_recs]
    exact h2 u
  · intro s2 v h2 u
    cases hc2 : s2.current with
    | none =>
      simpa [qthread_exit, hc2] using h2 u
    | some c =>
      have he : qthread_exit s2 v = qscheduler (exitMark s2 c v) := by
        simp [qthread_exit, hc2]
      rw [he]
      show ((qscheduler (exitMark s2 c v)).recs u).state ≠ RUNNING
      rw [qscheduler_recs]
      by_cases hu : u = c
      · subst hu; simp [exitMark, updateFn]
      · simp only [exitMark, updateFn]
        simpa [hu] using h2 u
  · intro s2 f b1 b2 b3 h2 u
    cases b1 with
    | false => simpa [qthread_create] using h2 u
    | true =>
      cases b2 with
      | false => simpa [qthread_create] using h2 u
      | true =>
        cases b3 with
        | false => simpa [qthread_create] using h2 u
        | true =>
          by_cases hu : u = f
          · subst hu; simp [qthread_create, updateFn]
          · simpa [qthread_create, updateFn, hu] using h2 u
  · intro s2 n h2 u
    exact h2 u
  · intro s2 host h2 u
    by_cases hu : u = host
    · subst hu; simp [qthread_init, updateFn]
    · simpa [qthread_init, updateFn, hu] using h2 u
  · intro s2 u h2 w
    exact h2 w

/-- Witness for C4 (amended) at the bootstrap state `sysBoot`. -/
theorem C4_witness :
    (qscheduler sysBoot).current = some 0 ∧
    (qscheduler sysBoot).recs = sysBoot.recs ∧
    (sysBoot.recs 0).state = READY := by
  have h := C4_dispatch_marks_current_not_running sysBoot 0 (by decide)
  exact ⟨h.1, h.2.1, h.2.2.1⟩

/-- Claim C6: if the current thread calls `qthread_exit v`, a subsequent
`qthread_join` on that thread's handle succeeds (for any busy-wait fuel,
since the target is already FINISHED) and yields exactly the word-sized
value `v` that was passed to exit. -/
theorem C6_result_fidelity (s : Sys) (c : Tid) (v : Int) (fuel : Nat)
    (hc : s.current = some c) :
    (qthread_join fuel (qthread_exit s v) c).map (fun r => r.2) = some v := by
  have he : qthread_exit s v = qscheduler (exitMark s c v) := by
    simp [qthread_exit, hc]
  have hrecs : (qthread_exit s v).recs = (exitMark s c v).recs := by
    rw [he, qscheduler_recs]
  have hfin : ((qthread_exit s v).recs c).state = FINISHED := by
    rw [hrecs]
    exact (exitMark_recs_self s c v).2
  have hret : ((qthread_exit s v).recs c).retval = v := by
    rw [hrecs]
    exact (exitMark_recs_self s c v).1
  simp [qthread_join, joinWait_finished fuel _ c hfin, joinFinished, hret]

/-- Witness for C6 at `sysA` (thread 1 exits with 42, then is joined). -/
theorem C6_witness :
    (qthread_join 3 (qthread_exit sysA 42) 1).map (fun r => r.2) = some 42 :=
  C6_result_fidelity sysA 1 42 3 (by decide)

/-- Claim C7: when the wrap-around scan from the record after current finds
no other READY record, then: if current itself is still READY the scheduler
selects current and continues running it, and if current is not READY the
scheduler selects nothing and returns to whatever context invoked it; in
both cases no context switch is performed and the entire state — registry,
record states, current pointer — is left exactly as it was. -/
theorem C7_no_other_ready (s : Sys) (c : Tid)
    (hc : s.current = some c) (hm : c ∈ s.thread_list)
    (hnone : (rotAfter s.thread_list c).find? (isReady s.recs) = none) :
    ((s.recs c).state = READY → schedSelect s = some c) ∧
    ((s.recs c).state ≠ READY → schedSelect s = none) ∧
    qscheduler s = s ∧
    contextTransfer s = false := by
  have hl : s.thread_list ≠ [] := by
    intro h0
    rw [h0] at hm
    cases hm
  have hsel : schedSelect s = if (s.recs c).state = READY then some c else none := by
    simp [schedSelect, hl, hc, selectNext, hnone]
  refine ⟨?_, ?_, ?_, ?_⟩
  · intro hr
    rw [hsel, if_pos hr]
  · intro hr
    rw [hsel, if_neg hr]
  · by_cases hr : (s.recs c).state = READY
    · have hs : schedSelect s = some c := by rw [hsel, if_pos hr]
      rw [qscheduler_dispatch s c hs]
      exact sys_set_current_self s c hc
    · have hs : schedSelect s = none := by rw [hsel, if_neg hr]
      unfold qscheduler
      rw [hs]
  · by_cases hr : (s.recs c).state = READY
    · have hs : schedSelect s = some c := by rw [hsel, if_pos hr]
      simp [contextTransfer, hc, hs]
    · have hs : schedSelect s = none := by rw [hsel, if_neg hr]
      simp [contextTransfer, hc, hs]

/-- Witness for C7 at `sysB`: current is 1 and the only READY record, the
scan after 1 finds nothing, so the scheduler keeps running 1 and changes
nothing. -/
theorem C7_witness :
    ((sysB.recs 1).state = READY → schedSelect sysB = some 1) ∧
    ((sysB.recs 1).state ≠ READY → schedSelect sysB = none) ∧
    qscheduler sysB = sysB ∧
    contextTransfer sysB = false :=
  C7_no_other_ready sysB 1 (by decide) (by decide) (by decide)

/-- Claim C8 (`qthread_init` modelled from the spec, its definition being
declared in qthread.h but absent from the sources; `main` in qthread.c
lines 264-274 performs the same steps inline): called on an empty registry
— once, before any create — init wraps the host's ambient context as a
record with `stack = null` and READY state and inserts it into the
registry; afterwards, in any state in which the host is registered and
READY while no other registered record is READY, a scheduler invocation
with any other record current selects the host, i.e. the scheduler can
return control to the host once all other READY threads are gone. -/
theorem C8_init_host (s : Sys) (host : Tid) (h0 : s.thread_list = []) :
    (qthread_init s host).thread_list = [host] ∧
    ((qthread_init s host).recs host).stack = none ∧
    ((qthread_init s host).recs host).state = READY ∧
    (∀ (s2 : Sys) (c : Tid),
        host ∈ s2.thread_list →
        (s2.recs host).state = READY →
        (∀ u ∈ s2.thread_list, u ≠ host → (s2.recs u).state ≠ READY) →
        s2.current = some c → c ∈ s2.thread_list → c ≠ host →
        schedSelect s2 = some host) := by
  refine ⟨?_, ?_, ?_, ?_⟩
  · simp [qthread_init, h0, register]
  · simp [qthread_init, updateFn]
  · simp [qthread_init, updateFn]
  · intro s2 c hmem hready hothers hcur hcmem hne
    have hl : s2.thread_list ≠ [] := by
      intro h1
      rw [h1] at hmem
      cases hmem
    have hrot : host ∈ rotAfter s2.thread_list c :=
      mem_rotAfter s2.thread_list c host hcmem hmem (fun he => hne he.symm)
    have hfind : (rotAfter s2.thread_list c).find? (isReady s2.recs) ≠ none := by
      intro hnone
      have := List.find?_eq_none.mp hnone host hrot
      simp [isReady, hready] at this
    cases hf : (rotAfter s2.thread_list c).find? (isReady s2.recs) with
    | none => exact absurd hf hfind
    | some w =>
      have hw_ready : (s2.recs w).state = READY := by
        have := List.find?_some hf
        simpa [isReady] using this
      have hw_mem : w ∈ s2.thread_list :=
        rotAfter_subset s2.thread_list c w hcmem (List.mem_of_find?_eq_some hf)
      have hw : w = host := by
        by_contra hwne
        exact hothers w hw_mem hwne hw_ready
      subst hw
      simp [schedSelect, hl, hcur, selectNext, hf]

/-- Witness for C8: init on the pristine initial state with host address 9. -/
theorem C8_witness :
    (qthread_init initial_state 9).thread_list = [9] ∧
    ((qthread_init initial_state 9).recs 9).stack = none ∧
    ((qthread_init initial_state 9).recs 9).state = READY := by
  have h := C8_init_host initial_state 9 rfl
  exact ⟨h.1, h.2.1, h.2.2.1⟩

/-- Claim C9: `qthread_set_stacksize S` changes only the single global
default stack size — registry, record heap, current pointer and allocation
count are all untouched, so threads created before the call keep their
existing buffers; a thread created after the call receives a buffer of
size at least S; and that creation does not touch the record of any other
thread. -/
theorem C9_set_stacksize_scoped (s : Sys) (S : Nat) (fresh u : Tid) (hu : u ≠ fresh) :
    (qthread_set_stacksize s S).stack_size = S ∧
    (qthread_set_stacksize s S).thread_list = s.thread_list ∧
    (qthread_set_stacksize s S).recs = s.recs ∧
    (qthread_set_stacksize s S).current = s.current ∧
    (qthread_set_stacksize s S).allocs = s.allocs ∧
    (∃ n, ((qthread_create (qthread_set_stacksize s S) fresh true true true).2.recs fresh).stack
            = some n ∧ S ≤ n) ∧
    (qthread_create (qthread_set_stacksize s S) fresh true true true).2.recs u = s.recs u := by
  refine ⟨rfl, rfl, rfl, rfl, rfl, ⟨S, ?_, le_refl S⟩, ?_⟩
  · simp [qthread_create, qthread_set_stacksize, updateFn]
  · simp [qthread_create, qthread_set_stacksize, updateFn, hu]

/-- Witness for C9 at `sysA` with new default 131072 and fresh address 7;
the earlier thread 0 keeps its record. -/
theorem C9_witness :
    (qthread_set_stacksize sysA 131072).stack_size = 131072 ∧
    (∃ n, ((qthread_create (qthread_set_stacksize sysA 131072) 7 true true true).2.recs 7).stack
            = some n ∧ 131072 ≤ n) ∧
    (qthread_create (qthread_set_stacksize sysA 131072) 7 true true true).2.recs 0
      = sysA.recs 0 := by
  have h := C9_set_stacksize_scoped sysA 131072 7 0 (by decide)
  exact ⟨h.1, h.2.2.2.2.2.1, h.2.2.2.2.2.2⟩
